import Mathlib

/-!
Shallow embedding of `metadata_scripts/GCEMetadataScripts/main.go` from the
compute-image-windows repository, together with theorems checking the
natural-language specification against it.

Strings are modelled as Lean `String`s; all character-level manipulation is
done structurally over `List Char` so every definition evaluates in the
kernel.  External effects (object-storage reads, HTTP GETs, process launch,
temp-directory creation) are modelled as oracle parameters or explicit state,
mirroring the Go control flow exactly.
-/

deriving instance DecidableEq for Except

namespace GCEMS

/-- The Go enum `metadataScriptType` (iota values ps1=0, cmd=1, bat=2, url=3). -/
inductive metadataScriptType where
  | ps1
  | cmd
  | bat
  | url
deriving DecidableEq, Repr

/-- The integer value of the Go iota constant. -/
def metadataScriptType.toNat : metadataScriptType → Nat
  | .ps1 => 0
  | .cmd => 1
  | .bat => 2
  | .url => 3

/-- The Go conversion `metadataScriptType(k)` from an int.  Only the values
0-3 ever reach it in the program (keys of the `scripts` map); other ints are
unrepresentable in the closed Lean enum and are mapped to `url`. -/
def metadataScriptType.ofInt : Nat → metadataScriptType
  | 0 => .ps1
  | 1 => .cmd
  | 2 => .bat
  | _ => .url

/-- The Go struct `metadataScript{Type, Script, Metadata}` (field `Type` is
renamed `type` because `Type` is reserved in Lean). -/
structure metadataScript where
  type : metadataScriptType
  script : String
  metadata : String
deriving DecidableEq, Repr

/-! ## URL Matcher: the regexes of main.go lines 53-75 and findMatch

The Go program matches, anchored (^...$), the four patterns of the
`findMatch` loop.  Each pattern is of the form
  prefix  bucket  separator  (.+)
with bucket = [a-z0-9][-_.a-z0-9]*.  Since the bucket character class and
the literal domain names never contain a slash, RE2's greedy leftmost
matching determines the captures uniquely, and each regex is embedded below
as a deterministic matcher over the character list:
the bucket-class run after the scheme is maximal (List.span), the fixed
domain suffix/literal is peeled off, the separating slash must follow the
run, and the object is the (non-empty, newline-free, because dot does not
match a newline in RE2) remainder up to end of text. -/

/-- Character class [a-z0-9]. -/
def lowerAlnum (c : Char) : Bool := (('a' ≤ c) && (c ≤ 'z')) || (('0' ≤ c) && (c ≤ '9'))

/-- Character class [-_.a-z0-9], the bucket-name alphabet. -/
def bucketChar (c : Char) : Bool := lowerAlnum c || c == '-' || c == '_' || c == '.'

/-- What the regex metacharacter dot matches in RE2: any character except a
newline. -/
def objChar (c : Char) : Bool := c != '\n'

/-- The capture of [a-z0-9][-_.a-z0-9]* : non-empty, first character a
lowercase letter or digit, remaining characters in the bucket alphabet. -/
def isBucketName : List Char → Bool
  | [] => false
  | c :: rest => lowerAlnum c && rest.all bucketChar

/-- The capture of (.+) anchored at end of text: non-empty and newline-free. -/
def isObjectName (o : List Char) : Bool := !o.isEmpty && o.all objChar

/-- Drop a literal prefix, or fail. -/
def dropPrefixChars (pre s : List Char) : Option (List Char) :=
  if pre.isPrefixOf s then some (s.drop pre.length) else none

/-- The pattern http[s]?:// - the optional s is disambiguated by the
following colon, so the match is deterministic. -/
def matchSchemeHttp (s : List Char) : Option (List Char) :=
  match dropPrefixChars "https://".data s with
  | some r => some r
  | none => dropPrefixChars "http://".data s

/-- FindStringSubmatch for gsRegex = ^gs://([a-z0-9][-_.a-z0-9]*)/(.+)$ -
returns the two captures when the whole string matches. -/
def gsRegexMatch (path : String) : Option (String × String) :=
  match dropPrefixChars "gs://".data path.data with
  | none => none
  | some rest =>
    let p := rest.span bucketChar
    match p.2 with
    | '/' :: o =>
      if isBucketName p.1 && isObjectName o then some (p.1.asString, o.asString) else none
    | _ => none

/-- FindStringSubmatch for
gsHTTPRegex1 = ^http[s]?://([a-z0-9][-_.a-z0-9]*)\.storage\.googleapis\.com/(.+)$ .
The bucket capture and the literal domain both consist of bucket-alphabet
characters, so together they form the maximal bucket-character run after the
scheme; the fixed-length domain suffix determines the bucket capture
uniquely. -/
def gsHTTPRegex1Match (path : String) : Option (String × String) :=
  match matchSchemeHttp path.data with
  | none => none
  | some rest =>
    let p := rest.span bucketChar
    let sfx := ".storage.googleapis.com".data
    if sfx.isSuffixOf p.1 then
      let b := p.1.take (p.1.length - sfx.length)
      match p.2 with
      | '/' :: o =>
        if isBucketName b && isObjectName o then some (b.asString, o.asString) else none
      | _ => none
    else none

/-- Common tail of gsHTTPRegex2/gsHTTPRegex3: after the fixed domain and its
slash, match ([a-z0-9][-_.a-z0-9]*)/(.+) . -/
def matchBucketSlashObject (rest : List Char) : Option (String × String) :=
  let p := rest.span bucketChar
  match p.2 with
  | '/' :: o =>
    if isBucketName p.1 && isObjectName o then some (p.1.asString, o.asString) else none
  | _ => none

/-- FindStringSubmatch for
gsHTTPRegex2 = ^http[s]?://storage\.cloud\.google\.com/bucket/(.+)$ . -/
def gsHTTPRegex2Match (path : String) : Option (String × String) :=
  match matchSchemeHttp path.data with
  | none => none
  | some rest =>
    match dropPrefixChars "storage.cloud.google.com/".data rest with
    | none => none
    | some rest2 => matchBucketSlashObject rest2

/-- FindStringSubmatch for
gsHTTPRegex3 = ^http[s]?://(?:commondata)?storage\.googleapis\.com/bucket/(.+)$ .
The optional non-capturing commondata alternative is tried greedily first;
the two literal alternatives are mutually exclusive prefixes. -/
def gsHTTPRegex3Match (path : String) : Option (String × String) :=
  match matchSchemeHttp path.data with
  | none => none
  | some rest =>
    match dropPrefixChars "commondatastorage.googleapis.com/".data rest with
    | some rest2 => matchBucketSlashObject rest2
    | none =>
      match dropPrefixChars "storage.googleapis.com/".data rest with
      | some rest2 => matchBucketSlashObject rest2
      | none => none

/-- The slice iterated by findMatch (main.go line 175); bucketRegex is not in
it.  Each regex has exactly two capture groups, so FindStringSubmatch
returns a 3-element slice exactly when the matcher below returns some. -/
def regexList : List (String → Option (String × String)) :=
  [gsRegexMatch, gsHTTPRegex1Match, gsHTTPRegex2Match, gsHTTPRegex3Match]

/-- findMatch (main.go lines 174-182): first regex in the list whose
submatch has length 3 wins; otherwise the pair of empty strings. -/
def findMatch (path : String) : String × String :=
  match regexList.findSome? (fun re => re path) with
  | some r => r
  | none => ("", "")

/-! ## Script Fetcher: downloadURL and downloadScript (main.go lines 146-172)

The network is abstracted into oracles: gs models downloadGSURL (the
authenticated object-storage read) and get models http.Get.  A Go http.Get
fails (returns a non-nil error) only at the transport level; an HTTP error
status still yields a response value, so the oracle returns a response
carrying the status code and the result of reading the body. -/

/-- A completed HTTP response: the status code and the outcome of
ioutil.ReadAll on its body. -/
structure httpResponse where
  statusCode : Nat
  bodyRead : Except String String
deriving DecidableEq, Repr

/-- downloadURL (main.go lines 161-172): propagate a transport error,
propagate a body-read error, and otherwise return the body - the status
code is never consulted. -/
def downloadURL (get : String → Except String httpResponse) (p : String) :
    Except String String :=
  match get p with
  | .error e => .error e
  | .ok res =>
    match res.bodyRead with
    | .error e => .error e
    | .ok data => .ok data

/-- downloadScript (main.go lines 146-159): when findMatch yields a
non-empty bucket and object, try the authenticated read; on its success
return the body, on its failure (after logging) fall back to downloadURL on
the original path string; when findMatch yields empty captures go straight
to downloadURL. -/
def downloadScript (gs : String → String → Except String String)
    (get : String → Except String httpResponse) (path : String) :
    Except String String :=
  let m := findMatch path
  if m.1 ≠ "" ∧ m.2 ≠ "" then
    match gs m.1 m.2 with
    | .ok script => .ok script
    | .error _ => downloadURL get path
  else downloadURL get path

/-! ## Script Resolver: metadataScript.run (main.go lines 91-122)

run dispatches on the script type; the url case trims the reference,
slices its last three characters (a Go slice s[len-3:len] that panics when
the trimmed string is shorter than three characters - modelled by the
crash result), classifies, fetches, and recurses once with the concrete
type.  The recursion is modelled with explicit fuel; the trace component
records every reference passed to the fetcher.  The Go default case
(an int outside the four enum values) is unrepresentable in the closed
Lean enum. -/

/-- The error values run can produce. -/
inductive goError where
  | exitError (code : Nat)
  | scriptTypeError (path sType : String)
  | fetchError (msg : String)
  | runError (msg : String)
deriving DecidableEq, Repr

/-- The ASCII white-space characters trimmed by strings.TrimSpace
(space, tab, newline, vertical tab, form feed, carriage return).
TrimSpace also trims a few non-ASCII Unicode spaces; none of the claims
involve those. -/
def goSpace (c : Char) : Bool :=
  c == ' ' || c == '\t' || c == '\n' || c == Char.ofNat 11 || c == Char.ofNat 12 || c == '\r'

/-- strings.TrimSpace restricted to the ASCII space class. -/
def trimSpace (s : String) : String :=
  (((s.data.dropWhile goSpace).reverse.dropWhile goSpace).reverse).asString

/-- The Go expression trimmed[len(trimmed)-3 : len(trimmed)] - none models
the slice-bounds runtime panic raised when the string is shorter than
three characters. -/
def lastThree (s : String) : Option String :=
  if s.data.length < 3 then none
  else some ((s.data.drop (s.data.length - 3)).asString)

/-- The switch on sType (main.go lines 103-112): the recognized values are
the bare three-character strings ps1, cmd and bat; anything else falls to
the default branch, which produces the script-type error. -/
def classify (sType : String) : Option metadataScriptType :=
  if sType = "ps1" then some .ps1
  else if sType = "cmd" then some .cmd
  else if sType = "bat" then some .bat
  else none

/-- Oracles for run: the fetcher (downloadScript) and the two concrete
runners (runPs1 for ps1, runBat for both cmd and bat). -/
structure runEnv where
  fetch : String → Except String String
  execPs1 : metadataScript → Option goError
  execBat : metadataScript → Option goError

/-- Outcome of run: a normal Go return (nil or an error), a runtime panic,
or exhaustion of the modelling fuel (which never happens with fuel 2). -/
inductive runResult where
  | normal (e : Option goError)
  | crash
  | fuelOut
deriving DecidableEq, Repr

/-- metadataScript.run with explicit fuel; the second component is the list
of references handed to the fetcher, in order. -/
def runFuel (env : runEnv) : Nat → metadataScript → runResult × List String
  | 0, _ => (.fuelOut, [])
  | n + 1, ms =>
    match ms.type with
    | .ps1 => (.normal (env.execPs1 ms), [])
    | .cmd => (.normal (env.execBat ms), [])
    | .bat => (.normal (env.execBat ms), [])
    | .url =>
      let trimmed := trimSpace ms.script
      match lastThree trimmed with
      | none => (.crash, [])
      | some sType =>
        match classify sType with
        | none => (.normal (some (.scriptTypeError trimmed sType)), [])
        | some st =>
          match env.fetch trimmed with
          | .error e => (.normal (some (.fetchError e)), [trimmed])
          | .ok body =>
            let r := runFuel env n ⟨st, body, ms.metadata⟩
            (r.1, trimmed :: r.2)

/-! ## Script Runner: tempFile, runCmd, runBat, runPs1 (main.go lines 253-305)

The file system is modelled by a counter handing out fresh temp-directory
identities plus the list of directories currently existing; the oracles of
execEnv inject the failures of ioutil.TempDir, ioutil.WriteFile, os.Pipe,
cmd.Start and the outcome of cmd.Wait.  Each runner also emits the list of
performed actions (directory creation, file write, command invocation). -/

/-- Temp directories in existence and the next fresh identity. -/
structure fsState where
  nextId : Nat
  liveDirs : List Nat
deriving DecidableEq, Repr

/-- Observable actions of a runner call. -/
inductive action where
  | mkTempDir (d : Nat)
  | writeFile (d : Nat) (name content : String)
  | command (argv : List String)
deriving DecidableEq, Repr

/-- Failure injection for one runner call. -/
structure execEnv where
  pipeFails : Bool
  startFails : Bool
  waitResult : Option goError
  tempDirFails : Bool
  writeFileFails : Bool
deriving DecidableEq, Repr

/-- filepath.Join of the fresh temp directory and the file name. -/
def tempPath (d : Nat) (name : String) : String :=
  "metadata-scripts" ++ toString d ++ "/" ++ name

/-- tempFile (main.go lines 297-305): create the directory, then write the
file into it; a write failure is returned to the caller AFTER the directory
already exists. -/
def tempFile (env : execEnv) (name content : String) (st : fsState) :
    Except String (Nat × String) × fsState × List action :=
  if env.tempDirFails then (.error "TempDir failed", st, [])
  else
    let d := st.nextId
    let st2 : fsState := ⟨d + 1, d :: st.liveDirs⟩
    if env.writeFileFails then (.error "WriteFile failed", st2, [.mkTempDir d])
    else (.ok (d, tempPath d name), st2, [.mkTempDir d, .writeFile d name content])

/-- runCmd (main.go lines 253-274): pipe creation failure, start failure,
or the wait outcome. -/
def runCmdM (env : execEnv) : Option goError :=
  if env.pipeFails then some (.runError "pipe")
  else if env.startFails then some (.runError "start")
  else env.waitResult

/-- runBat (main.go lines 276-284): write metadata+.bat, return early on a
tempFile error (before the deferred removal is registered), otherwise run
the file directly and remove the directory on the way out. -/
def runBat (env : execEnv) (ms : metadataScript) (st : fsState) :
    Option goError × fsState × List action :=
  match tempFile env (ms.metadata ++ ".bat") ms.script st with
  | (.error e, st2, acts) => (some (.runError e), st2, acts)
  | (.ok df, st2, acts) =>
    (runCmdM env, ⟨st2.nextId, st2.liveDirs.erase df.1⟩, acts ++ [.command [df.2]])

/-- runPs1 (main.go lines 286-295): write metadata+.ps1, same early return,
otherwise invoke the fixed PowerShell interpreter with the fixed flags on
the temp file and remove the directory on the way out. -/
def runPs1 (env : execEnv) (ms : metadataScript) (st : fsState) :
    Option goError × fsState × List action :=
  match tempFile env (ms.metadata ++ ".ps1") ms.script st with
  | (.error e, st2, acts) => (some (.runError e), st2, acts)
  | (.ok df, st2, acts) =>
    (runCmdM env, ⟨st2.nextId, st2.liveDirs.erase df.1⟩,
      acts ++ [.command ["powershell.exe", "-NoProfile", "-NoLogo",
        "-ExecutionPolicy", "Unrestricted", "-File", df.2]])

/-- The concrete-kind cases of metadataScript.run (main.go lines 92-98):
ps1 is handled by runPs1, and BOTH cmd and bat are handled by runBat.  The
url case belongs to the resolver model above. -/
def runScriptCases (env : execEnv) (ms : metadataScript) (st : fsState) :
    Option goError × fsState × List action :=
  match ms.type with
  | .ps1 => runPs1 env ms st
  | .cmd => runBat env ms st
  | .bat => runBat env ms st
  | .url => (some (.runError "remote pointer not handled by the runners"), st, [])

/-! ## Orchestrator: validateArgs, parseMetadata, runScripts, main
(main.go lines 217-251 and 307-352) -/

/-- The Go variable commands. -/
def commands : List String := ["specialize", "startup", "shutdown"]

/-- The Go variable scripts: the per-kind metadata key templates. -/
def scripts : List (metadataScriptType × String) :=
  [(.ps1, "%s-script-ps1"), (.cmd, "%s-script-cmd"),
   (.bat, "%s-script-bat"), (.url, "%s-script-url")]

/-- Substitute the first percent-s verb in the format character list. -/
def subst1 : List Char → List Char → List Char
  | '%' :: 's' :: rest, a => a ++ rest
  | c :: rest, a => c :: subst1 rest a
  | [], _ => []

/-- fmt.Sprintf for the one-verb format strings of the scripts map. -/
def sprintf1 (f a : String) : String := (subst1 f.data a.data).asString

/-- validateArgs (main.go lines 307-326): exactly two arguments (program
name and phase), the phase one of the three commands; the key set maps
every script type to the formatted attribute name, with the sysprep-
prefix for specialize and the windows- prefix otherwise. -/
def validateArgs (args : List String) :
    Except String (List (metadataScriptType × String)) :=
  match args with
  | [_, arg] =>
    if commands.contains arg then
      let command := if arg == "specialize" then "sysprep-" ++ arg else "windows-" ++ arg
      .ok (scripts.map (fun p => (p.1, sprintf1 p.2 command)))
    else .error "No valid arguments specified."
  | _ => .error "No valid arguments specified."

/-- Lookup in the metadata key-set map mdsm (a Go map keyed by script
type). -/
def lookupType (mdsm : List (metadataScriptType × String))
    (st : metadataScriptType) : Option String :=
  (mdsm.find? (fun p => p.1 == st)).map (fun p => p.2)

/-- parseMetadata (main.go lines 217-235): collect the int values of the
key-set's keys, sort them ascending, and for each key in that order look
the attribute name up in the raw metadata map md, skipping absent or empty
values and appending one record otherwise. -/
def parseMetadata (mdsm : List (metadataScriptType × String))
    (md : String → Option String) : List metadataScript :=
  let keys := (mdsm.map (fun p => p.1.toNat)).insertionSort (· ≤ ·)
  keys.filterMap (fun k =>
    let st := metadataScriptType.ofInt k
    match lookupType mdsm st with
    | none => none
    | some name =>
      match md name with
      | none => none
      | some script => if script = "" then none else some ⟨st, script, name⟩)

/-- Per-script outcome of metadataScript.run as classified by runScripts:
a process exit error, a nil error (exit status 0), or any other error. -/
inductive scriptOutcome where
  | exitError (code : Nat)
  | success
  | otherFailure (msg : String)
deriving DecidableEq, Repr

/-- The log lines runScripts emits. -/
inductive logEntry where
  | infoFound (name : String)
  | infoExit (name : String) (code : Nat)
  | errorEntry (msg : String)
deriving DecidableEq, Repr

/-- runScripts (main.go lines 237-251): for every script, in order, log the
discovery line and then classify the outcome - an exec.ExitError is logged
as an informational exit status, success as exit status 0, anything else
through logger.Error - and continue with the next script in all cases. -/
def runScripts (outcome : metadataScript → scriptOutcome) :
    List metadataScript → List logEntry
  | [] => []
  | s :: rest =>
    (match outcome s with
     | .exitError n => [.infoFound s.metadata, .infoExit s.metadata n]
     | .success => [.infoFound s.metadata, .infoExit s.metadata 0]
     | .otherFailure e => [.infoFound s.metadata, .errorEntry e]) ++ runScripts outcome rest

/-- The exit code of main (main.go lines 328-352): 1 on an argument
validation failure, 1 on a metadata fetch failure (logger.Fatal), and 0
otherwise - both when the run list is empty and after runScripts has
processed a non-empty list, whatever the per-script outcomes were. -/
def mainExit (args : List String) (mdFetch : Except String (String → Option String))
    (outcome : metadataScript → scriptOutcome) : Nat :=
  match validateArgs args with
  | .error _ => 1
  | .ok mdsm =>
    match mdFetch with
    | .error _ => 1
    | .ok md =>
      let scr := parseMetadata mdsm md
      if scr.isEmpty then 0
      else
        let _ := runScripts outcome scr
        0

/-- A concrete raw metadata map used by the orchestrator witness: the
startup ps1 and cmd attributes are populated, everything else is absent. -/
def mdExample : String → Option String :=
  fun n =>
    if n = "windows-startup-script-ps1" then some "Write-Output hi"
    else if n = "windows-startup-script-cmd" then some "echo hi"
    else none

/-! ## Theorems -/

theorem matchBucketSlashObject_captures {rest : List Char} {b o : String}
    (h : matchBucketSlashObject rest = some (b, o)) :
    isBucketName b.data = true ∧ isObjectName o.data = true := by
  simp only [matchBucketSlashObject] at h
  split at h
  · split at h
    · rename_i o' hc
      rw [Bool.and_eq_true] at hc
      injection h with h'
      injection h' with hb ho
      subst hb; subst ho
      exact hc
    · exact absurd h (by simp)
  · exact absurd h (by simp)

theorem gsRegexMatch_captures {path b o : String}
    (h : gsRegexMatch path = some (b, o)) :
    isBucketName b.data = true ∧ isObjectName o.data = true := by
  simp only [gsRegexMatch] at h
  split at h
  · exact absurd h (by simp)
  · split at h
    · split at h
      · rename_i o' hc
        rw [Bool.and_eq_true] at hc
        injection h with h'
        injection h' with hb ho
        subst hb; subst ho
        exact hc
      · exact absurd h (by simp)
    · exact absurd h (by simp)

theorem gsHTTPRegex1Match_captures {path b o : String}
    (h : gsHTTPRegex1Match path = some (b, o)) :
    isBucketName b.data = true ∧ isObjectName o.data = true := by
  simp only [gsHTTPRegex1Match] at h
  split at h
  · exact absurd h (by simp)
  · split at h
    · split at h
      · split at h
        · rename_i o' hc
          rw [Bool.and_eq_true] at hc
          injection h with h'
          injection h' with hb ho
          subst hb; subst ho
          exact hc
        · exact absurd h (by simp)
      · exact absurd h (by simp)
    · exact absurd h (by simp)

theorem gsHTTPRegex2Match_captures {path b o : String}
    (h : gsHTTPRegex2Match path = some (b, o)) :
    isBucketName b.data = true ∧ isObjectName o.data = true := by
  simp only [gsHTTPRegex2Match] at h
  split at h
  · exact absurd h (by simp)
  · split at h
    · exact absurd h (by simp)
    · exact matchBucketSlashObject_captures h

theorem gsHTTPRegex3Match_captures {path b o : String}
    (h : gsHTTPRegex3Match path = some (b, o)) :
    isBucketName b.data = true ∧ isObjectName o.data = true := by
  simp only [gsHTTPRegex3Match] at h
  split at h
  · exact absurd h (by simp)
  · split at h
    · exact matchBucketSlashObject_captures h
    · split at h
      · exact matchBucketSlashObject_captures h
      · exact absurd h (by simp)

theorem captures_ne_empty {b o : String}
    (hb : isBucketName b.data = true) (ho : isObjectName o.data = true) :
    b ≠ "" ∧ o ≠ "" := by
  constructor
  · intro he; subst he; simp [isBucketName] at hb
  · intro he; subst he; simp [isObjectName] at ho

/-- Claim C3: findMatch returns the pair captured by the first of the four
recognized URL shapes that matches, the captured bucket is non-empty over
the bucket alphabet with a lowercase-alphanumeric first character, the
captured object is non-empty, and when no shape matches the result is the
no-match pair of empty strings; everything is computed syntactically from
the reference string alone. -/
theorem findMatch_first_shape (path : String) :
    (∀ b o, gsRegexMatch path = some (b, o) → findMatch path = (b, o))
  ∧ (gsRegexMatch path = none →
      ∀ b o, gsHTTPRegex1Match path = some (b, o) → findMatch path = (b, o))
  ∧ (gsRegexMatch path = none → gsHTTPRegex1Match path = none →
      ∀ b o, gsHTTPRegex2Match path = some (b, o) → findMatch path = (b, o))
  ∧ (gsRegexMatch path = none → gsHTTPRegex1Match path = none → gsHTTPRegex2Match path = none →
      ∀ b o, gsHTTPRegex3Match path = some (b, o) → findMatch path = (b, o))
  ∧ (gsRegexMatch path = none → gsHTTPRegex1Match path = none → gsHTTPRegex2Match path = none →
      gsHTTPRegex3Match path = none → findMatch path = ("", ""))
  ∧ (∀ b o, (gsRegexMatch path = some (b, o) ∨ gsHTTPRegex1Match path = some (b, o) ∨
        gsHTTPRegex2Match path = some (b, o) ∨ gsHTTPRegex3Match path = some (b, o)) →
      b ≠ "" ∧ isBucketName b.data = true ∧ o ≠ "" ∧ isObjectName o.data = true) := by
  refine ⟨?_, ?_, ?_, ?_, ?_, ?_⟩
  · intro b o h; simp [findMatch, regexList, List.findSome?, h]
  · intro h1 b o h; simp [findMatch, regexList, List.findSome?, h1, h]
  · intro h1 h2 b o h; simp [findMatch, regexList, List.findSome?, h1, h2, h]
  · intro h1 h2 h3 b o h; simp [findMatch, regexList, List.findSome?, h1, h2, h3, h]
  · intro h1 h2 h3 h4; simp [findMatch, regexList, List.findSome?, h1, h2, h3, h4]
  · intro b o h
    have hc : isBucketName b.data = true ∧ isObjectName o.data = true := by
      rcases h with h | h | h | h
      · exact gsRegexMatch_captures h
      · exact gsHTTPRegex1Match_captures h
      · exact gsHTTPRegex2Match_captures h
      · exact gsHTTPRegex3Match_captures h
    have hne := captures_ne_empty hc.1 hc.2
    exact ⟨hne.1, hc.1, hne.2, hc.2⟩

/-- Witness for C3 at a concrete object-storage URL. -/
theorem findMatch_first_shape_witness :
    findMatch "gs://my-bucket/a/b.ps1" = ("my-bucket", "a/b.ps1") :=
  (findMatch_first_shape "gs://my-bucket/a/b.ps1").1 "my-bucket" "a/b.ps1" (by rfl)

/-- Claim C4: when the matcher produced a real match but the authenticated
read fails, the fetch falls back to a single unauthenticated GET of the
original reference string verbatim; a non-match goes straight to that GET;
the GET error is propagated as the fetch failure. -/
theorem downloadScript_fallback (gs : String → String → Except String String)
    (get : String → Except String httpResponse) (path : String) :
    (∀ b o, findMatch path = (b, o) → b ≠ "" → o ≠ "" →
        ∀ e, gs b o = .error e → downloadScript gs get path = downloadURL get path)
  ∧ (∀ b o, findMatch path = (b, o) → (b = "" ∨ o = "") →
        downloadScript gs get path = downloadURL get path)
  ∧ (∀ b o e e2, findMatch path = (b, o) → b ≠ "" → o ≠ "" → gs b o = .error e →
        downloadURL get path = .error e2 → downloadScript gs get path = .error e2)
  ∧ (∀ e2, findMatch path = ("", "") → downloadURL get path = .error e2 →
        downloadScript gs get path = .error e2) := by
  refine ⟨?_, ?_, ?_, ?_⟩
  · intro b o hm hb ho e hgs
    simp only [downloadScript, hm]
    rw [if_pos ⟨hb, ho⟩, hgs]
  · intro b o hm hbo
    simp only [downloadScript, hm]
    rw [if_neg]
    rcases hbo with hb | ho
    · exact fun hc => hc.1 hb
    · exact fun hc => hc.2 ho
  · intro b o e e2 hm hb ho hgs hget
    simp only [downloadScript, hm]
    rw [if_pos ⟨hb, ho⟩, hgs, hget]
  · intro e2 hm hget
    simp only [downloadScript, hm]
    rw [if_neg (fun hc => hc.1 rfl), hget]

/-- Witness for C4: a matched gs URL whose authenticated read is denied
falls back to the GET of the original string. -/
theorem downloadScript_fallback_witness :
    downloadScript (fun _ _ => .error "denied") (fun _ => .ok ⟨200, .ok "body"⟩) "gs://b/o" =
      downloadURL (fun _ => .ok ⟨200, .ok "body"⟩) "gs://b/o" :=
  (downloadScript_fallback (fun _ _ => .error "denied")
    (fun _ => .ok ⟨200, .ok "body"⟩) "gs://b/o").1 "b" "o" (by rfl)
    (by decide) (by decide) "denied" rfl

/-- Claim C10: downloadURL never looks at the HTTP status code - any
completed GET's body is returned as the script text, and an error arises
exactly when the request itself or reading the body fails. -/
theorem downloadURL_status_blind (get : String → Except String httpResponse) (p : String) :
    (∀ status body, get p = .ok ⟨status, .ok body⟩ → downloadURL get p = .ok body)
  ∧ (∀ e, downloadURL get p = .error e ↔
      (get p = .error e ∨ ∃ res, get p = .ok res ∧ res.bodyRead = .error e)) := by
  constructor
  · intro status body h; simp [downloadURL, h]
  · intro e
    constructor
    · intro h
      unfold downloadURL at h
      split at h
      · rename_i heq
        injection h with h'
        subst h'
        exact Or.inl heq
      · rename_i res heq
        split at h
        · rename_i hbody
          injection h with h'
          subst h'
          exact Or.inr ⟨res, heq, hbody⟩
        · exact absurd h (by simp)
    · intro h
      rcases h with heq | ⟨res, hres, hbody⟩
      · simp [downloadURL, heq]
      · simp [downloadURL, hres, hbody]

/-- Witness for C10: a 404 response page body is returned as the fetched
script. -/
theorem downloadURL_status_blind_witness :
    downloadURL (fun _ => .ok ⟨404, .ok "not found page"⟩) "http://x" = .ok "not found page" :=
  (downloadURL_status_blind (fun _ => .ok ⟨404, .ok "not found page"⟩) "http://x").1
    404 "not found page" rfl

theorem runFuel_url_eq (env : runEnv) (sc m : String) (n : Nat) :
    runFuel env (n + 1) ⟨.url, sc, m⟩ =
      match lastThree (trimSpace sc) with
      | none => (.crash, [])
      | some sType =>
        match classify sType with
        | none => (.normal (some (.scriptTypeError (trimSpace sc) sType)), [])
        | some st =>
          match env.fetch (trimSpace sc) with
          | .error e => (.normal (some (.fetchError e)), [trimSpace sc])
          | .ok body =>
            let r := runFuel env n ⟨st, body, m⟩
            (r.1, trimSpace sc :: r.2) := rfl

theorem classify_not_url (s : String) (st : metadataScriptType)
    (h : classify s = some st) : st ≠ metadataScriptType.url := by
  unfold classify at h
  split at h
  · injection h with h2; subst h2; decide
  · split at h
    · injection h with h2; subst h2; decide
    · split at h
      · injection h with h2; subst h2; decide
      · exact absurd h (by simp)

theorem runFuel_concrete_eq (env : runEnv) (ms : metadataScript) (n : Nat)
    (h : ms.type ≠ .url) : runFuel env (n + 1) ms = runFuel env 1 ms := by
  obtain ⟨t, sc, m⟩ := ms
  cases t
  · rfl
  · rfl
  · rfl
  · exact absurd rfl h

/-- Claim C5 (amended): for a RemotePointer whose trimmed reference has at
least three characters, the LAST THREE characters alone - with no dot
required - select the concrete kind: ps1, cmd or bat picks the matching
kind and only then is the fetcher invoked on the trimmed reference, while
any other three-character ending produces the unrecognized-extension
resolve error with no fetch attempted. -/
theorem run_url_classification (env : runEnv) (ms : metadataScript) (s : String)
    (h : ms.type = .url) (hs : lastThree (trimSpace ms.script) = some s) :
    (s ≠ "ps1" → s ≠ "cmd" → s ≠ "bat" →
      runFuel env 2 ms = (.normal (some (.scriptTypeError (trimSpace ms.script) s)), []))
  ∧ (s = "ps1" → ∀ body, env.fetch (trimSpace ms.script) = .ok body →
      runFuel env 2 ms = (.normal (env.execPs1 ⟨.ps1, body, ms.metadata⟩), [trimSpace ms.script]))
  ∧ (s = "cmd" → ∀ body, env.fetch (trimSpace ms.script) = .ok body →
      runFuel env 2 ms = (.normal (env.execBat ⟨.cmd, body, ms.metadata⟩), [trimSpace ms.script]))
  ∧ (s = "bat" → ∀ body, env.fetch (trimSpace ms.script) = .ok body →
      runFuel env 2 ms = (.normal (env.execBat ⟨.bat, body, ms.metadata⟩), [trimSpace ms.script]))
  ∧ ((s = "ps1" ∨ s = "cmd" ∨ s = "bat") → ∀ e, env.fetch (trimSpace ms.script) = .error e →
      runFuel env 2 ms = (.normal (some (.fetchError e)), [trimSpace ms.script])) := by
  obtain ⟨t, sc, m⟩ := ms
  simp only at h
  subst h
  simp only at hs
  refine ⟨?_, ?_, ?_, ?_, ?_⟩
  · intro h1 h2 h3
    rw [runFuel_url_eq, hs]
    simp [classify, h1, h2, h3]
  · intro h1 body hb
    subst h1
    rw [runFuel_url_eq, hs]
    simp [classify, hb, runFuel]
  · intro h1 body hb
    subst h1
    rw [runFuel_url_eq, hs]
    simp [classify, hb, runFuel]
  · intro h1 body hb
    subst h1
    rw [runFuel_url_eq, hs]
    simp [classify, hb, runFuel]
  · intro h1 e he
    rw [runFuel_url_eq, hs]
    rcases h1 with h1 | h1 | h1 <;> subst h1 <;> simp [classify, he]

/-- Witness for C5 (amended) at a concrete remote ps1 pointer. -/
theorem run_url_classification_witness :
    runFuel ⟨fun _ => .ok "Write-Output hi", fun _ => none, fun _ => none⟩ 2
        ⟨.url, " http://x/y.ps1 ", "lbl"⟩ =
      (.normal none, ["http://x/y.ps1"]) :=
  (run_url_classification ⟨fun _ => .ok "Write-Output hi", fun _ => none, fun _ => none⟩
    ⟨.url, " http://x/y.ps1 ", "lbl"⟩ "ps1" rfl rfl).2.1 rfl "Write-Output hi" rfl

/-- Counterexample for C5 as stated: the trimmed reference xcmd ends in
none of .ps1, .cmd, .bat, yet resolution does NOT fail - the last three
characters cmd classify it as a batch script and the fetcher IS invoked. -/
theorem run_url_suffix_counterexample :
    trimSpace "xcmd" = "xcmd"
  ∧ ".ps1".data.isSuffixOf "xcmd".data = false
  ∧ ".cmd".data.isSuffixOf "xcmd".data = false
  ∧ ".bat".data.isSuffixOf "xcmd".data = false
  ∧ runFuel ⟨fun _ => .ok "echo hi", fun _ => none, fun _ => none⟩ 2 ⟨.url, "xcmd", "lbl"⟩
      = (.normal none, ["xcmd"]) :=
  ⟨rfl, by decide, by decide, by decide, rfl⟩

/-- Claim C6 (code bug evidence): a url-type script whose trimmed reference
is shorter than three characters makes the Go slice expression
trimmed[len(trimmed)-3:] panic instead of reaching the unrecognized-
extension error branch. -/
theorem run_url_short_reference_crash :
    trimSpace " a " = "a"
  ∧ runFuel ⟨fun _ => .ok "", fun _ => none, fun _ => none⟩ 2 ⟨.url, " a ", "lbl"⟩
      = (.crash, []) :=
  ⟨rfl, rfl⟩

/-- Claim C9: resolution recurses at most one level - two units of fuel
compute the same result as any larger amount, fuel two is never exhausted,
and the classification feeding the recursive call can never produce the
RemotePointer kind, so a fetched body is never re-inspected as a pointer
and run terminates on every input. -/
theorem run_recursion_depth_one (env : runEnv) (ms : metadataScript) (n : Nat) :
    runFuel env (n + 2) ms = runFuel env 2 ms
  ∧ (runFuel env 2 ms).1 ≠ runResult.fuelOut
  ∧ (∀ s st, classify s = some st → st ≠ .url) := by
  refine ⟨?_, ?_, fun s st h => classify_not_url s st h⟩
  · obtain ⟨t, sc, m⟩ := ms
    cases t
    · rfl
    · rfl
    · rfl
    · show runFuel env (n + 1 + 1) ⟨.url, sc, m⟩ = runFuel env (1 + 1) ⟨.url, sc, m⟩
      rw [runFuel_url_eq env sc m (n + 1), runFuel_url_eq env sc m 1]
      cases hl : lastThree (trimSpace sc) with
      | none => rfl
      | some sType =>
        cases hc : classify sType with
        | none => simp only [hc]
        | some st =>
          simp only [hc]
          cases hf : env.fetch (trimSpace sc) with
          | error e => simp only [hf]
          | ok body =>
            simp only [hf]
            rw [runFuel_concrete_eq env ⟨st, body, m⟩ n (classify_not_url sType st hc)]
  · obtain ⟨t, sc, m⟩ := ms
    cases t
    · exact fun hq => runResult.noConfusion hq
    · exact fun hq => runResult.noConfusion hq
    · exact fun hq => runResult.noConfusion hq
    · show (runFuel env (1 + 1) ⟨.url, sc, m⟩).1 ≠ runResult.fuelOut
      rw [runFuel_url_eq env sc m 1]
      cases hl : lastThree (trimSpace sc) with
      | none => exact fun hq => runResult.noConfusion hq
      | some sType =>
        cases hc : classify sType with
        | none => simp only [hc]; exact fun hq => runResult.noConfusion hq
        | some st =>
          simp only [hc]
          cases hf : env.fetch (trimSpace sc) with
          | error e => simp only [hf]; exact fun hq => runResult.noConfusion hq
          | ok body =>
            simp only [hf]
            have := classify_not_url sType st hc
            obtain ⟨⟩ | ⟨⟩ | ⟨⟩ | ⟨⟩ := st
            · exact fun hq => runResult.noConfusion hq
            · exact fun hq => runResult.noConfusion hq
            · exact fun hq => runResult.noConfusion hq
            · exact absurd rfl this

/-- Witness for C9: the inner implication instantiated at the cmd
classification. -/
theorem run_recursion_depth_one_witness :
    metadataScriptType.cmd ≠ metadataScriptType.url :=
  (run_recursion_depth_one ⟨fun _ => .ok "", fun _ => none, fun _ => none⟩
    ⟨.ps1, "x", "m"⟩ 0).2.2 "cmd" .cmd rfl

/-- Claim C7 (amended): whenever the script file write succeeds - and also
when the temp-directory creation itself fails so no directory exists - the
runner removes the temp directory on every exit path (success, non-zero
process exit, pipe or launch failure); but when the directory is created
and the file write then fails, the early return happens before the
deferred removal is registered and the directory is leaked. -/
theorem temp_dir_removed (env : execEnv) (ms : metadataScript) (st : fsState)
    (hw : env.writeFileFails = false) :
    (runBat env ms st).2.1.liveDirs = st.liveDirs
  ∧ (runPs1 env ms st).2.1.liveDirs = st.liveDirs := by
  by_cases hd : env.tempDirFails
  · constructor
    · simp [runBat, tempFile, hd, hw]
    · simp [runPs1, tempFile, hd, hw]
  · constructor
    · simp [runBat, tempFile, hd, hw]
    · simp [runPs1, tempFile, hd, hw]

/-- Witness for C7 (amended): a successful run leaves the directory list as
it was. -/
theorem temp_dir_removed_witness :
    (runBat ⟨false, false, none, false, false⟩ ⟨.bat, "echo hi", "lbl"⟩ ⟨5, [7]⟩).2.1.liveDirs
      = [7] :=
  (temp_dir_removed ⟨false, false, none, false, false⟩ ⟨.bat, "echo hi", "lbl"⟩ ⟨5, [7]⟩ rfl).1

/-- Counterexample for C7 as stated: when the temp directory is created but
writing the script file into it fails, runBat returns before the deferred
removal is registered and the fresh directory (identity 0) is left
behind. -/
theorem temp_dir_leaked_on_write_failure :
    (runBat ⟨false, false, none, false, true⟩ ⟨.bat, "echo hi", "lbl"⟩ ⟨0, []⟩).2.1.liveDirs
      = [0]
  ∧ ([0] : List Nat) ≠ [] :=
  ⟨rfl, by decide⟩

/-- Claim C8 (amended): with temp-directory creation and file write
succeeding, a ps1 record is written to label.ps1 and invoked through
powershell.exe with -NoProfile, -NoLogo and -ExecutionPolicy Unrestricted,
while BOTH the cmd and the bat kinds are written to label.bat (never to
label.cmd) and invoked directly as executables. -/
theorem runner_invocation (env : execEnv) (ms : metadataScript) (st : fsState)
    (hd : env.tempDirFails = false) (hw : env.writeFileFails = false) :
    (ms.type = .ps1 → (runScriptCases env ms st).2.2 =
      [.mkTempDir st.nextId,
       .writeFile st.nextId (ms.metadata ++ ".ps1") ms.script,
       .command ["powershell.exe", "-NoProfile", "-NoLogo", "-ExecutionPolicy",
         "Unrestricted", "-File", tempPath st.nextId (ms.metadata ++ ".ps1")]])
  ∧ ((ms.type = .cmd ∨ ms.type = .bat) → (runScriptCases env ms st).2.2 =
      [.mkTempDir st.nextId,
       .writeFile st.nextId (ms.metadata ++ ".bat") ms.script,
       .command [tempPath st.nextId (ms.metadata ++ ".bat")]]) := by
  constructor
  · intro h
    simp [runScriptCases, h, runPs1, tempFile, hd, hw]
  · intro h
    rcases h with h | h <;> simp [runScriptCases, h, runBat, tempFile, hd, hw]

/-- Witness for C8 (amended) at a concrete ps1 record. -/
theorem runner_invocation_witness :
    (runScriptCases ⟨false, false, none, false, false⟩
        ⟨.ps1, "Write-Output hi", "lbl"⟩ ⟨0, []⟩).2.2 =
      [.mkTempDir 0, .writeFile 0 "lbl.ps1" "Write-Output hi",
       .command ["powershell.exe", "-NoProfile", "-NoLogo", "-ExecutionPolicy",
         "Unrestricted", "-File", tempPath 0 "lbl.ps1"]] :=
  (runner_invocation ⟨false, false, none, false, false⟩
    ⟨.ps1, "Write-Output hi", "lbl"⟩ ⟨0, []⟩ rfl rfl).1 rfl

/-- Counterexample for C8 as stated: a legacy-batch-A (cmd) record is
written to label.bat, not to label.cmd, before being invoked directly. -/
theorem runner_cmd_extension_counterexample :
    (runScriptCases ⟨false, false, none, false, false⟩ ⟨.cmd, "echo hi", "label"⟩ ⟨0, []⟩).2.2 =
      [.mkTempDir 0, .writeFile 0 "label.bat" "echo hi",
       .command [tempPath 0 "label.bat"]]
  ∧ ("label.bat" : String) ≠ "label.cmd" :=
  ⟨rfl, by decide⟩

theorem parseMetadata_four (n1 n2 n3 n4 : String) (md : String → Option String) :
    parseMetadata [(.ps1, n1), (.cmd, n2), (.bat, n3), (.url, n4)] md =
      [metadataScriptType.ps1, .cmd, .bat, .url].filterMap (fun st =>
        match lookupType [(.ps1, n1), (.cmd, n2), (.bat, n3), (.url, n4)] st with
        | none => none
        | some name =>
          match md name with
          | none => none
          | some script => if script = "" then none else some ⟨st, script, name⟩) := rfl

theorem parseMetadata_two (n3 n4 : String) (md : String → Option String) :
    parseMetadata [(.bat, n3), (.url, n4)] md =
      [metadataScriptType.bat, .url].filterMap (fun st =>
        match lookupType [(.bat, n3), (.url, n4)] st with
        | none => none
        | some name =>
          match md name with
          | none => none
          | some script => if script = "" then none else some ⟨st, script, name⟩) := rfl

theorem filterMapArm_type {mdsm : List (metadataScriptType × String)}
    {md : String → Option String} {st : metadataScriptType} {r : metadataScript}
    (h : (match lookupType mdsm st with
          | none => none
          | some name =>
            match md name with
            | none => none
            | some script => if script = "" then none else some ⟨st, script, name⟩) = some r) :
    r.type = st := by
  split at h
  · exact absurd h (by simp)
  · split at h
    · exact absurd h (by simp)
    · split at h
      · exact absurd h (by simp)
      · injection h with h2
        rw [← h2]

theorem mem_parseMetadata_batUrl {n3 n4 : String} {md : String → Option String}
    {r : metadataScript} (hr : r ∈ parseMetadata [(.bat, n3), (.url, n4)] md) :
    r.type = .bat ∨ r.type = .url := by
  rw [parseMetadata_two, List.mem_filterMap] at hr
  obtain ⟨st, hst, hf⟩ := hr
  have ht := filterMapArm_type hf
  rcases List.mem_pair.mp hst with h | h
  · exact Or.inl (h ▸ ht)
  · exact Or.inr (h ▸ ht)

/-- Claim C1: for every phase accepted by validateArgs and every raw
metadata map, parseMetadata visits the four script kinds in fixed ascending
order (ps1, cmd, bat, url), skipping kinds whose attribute is absent or
empty and appending one record per remaining kind; when both the ps1 and
the cmd attributes are populated the ps1 record precedes the cmd record and
each occurs exactly once (the remaining records are of bat or url kind). -/
theorem parseMetadata_order (args : List String)
    (mdsm : List (metadataScriptType × String)) (md : String → Option String)
    (h : validateArgs args = .ok mdsm) :
    parseMetadata mdsm md =
      [metadataScriptType.ps1, .cmd, .bat, .url].filterMap (fun st =>
        match lookupType mdsm st with
        | none => none
        | some name =>
          match md name with
          | none => none
          | some script => if script = "" then none else some ⟨st, script, name⟩)
  ∧ (∀ n1 n2 s1 s2, lookupType mdsm .ps1 = some n1 → lookupType mdsm .cmd = some n2 →
      md n1 = some s1 → s1 ≠ "" → md n2 = some s2 → s2 ≠ "" →
      ∃ tail, parseMetadata mdsm md =
        ⟨.ps1, s1, n1⟩ :: ⟨.cmd, s2, n2⟩ :: tail ∧
        ∀ r ∈ tail, r.type = .bat ∨ r.type = .url) := by
  obtain ⟨c, hm⟩ : ∃ c, mdsm =
      [(.ps1, sprintf1 "%s-script-ps1" c), (.cmd, sprintf1 "%s-script-cmd" c),
       (.bat, sprintf1 "%s-script-bat" c), (.url, sprintf1 "%s-script-url" c)] := by
    unfold validateArgs at h
    split at h
    · split at h
      · injection h with h2
        exact ⟨_, h2.symm⟩
      · exact absurd h (by simp)
    · exact absurd h (by simp)
  subst hm
  constructor
  · exact parseMetadata_four _ _ _ _ md
  · intro n1 n2 s1 s2 h1 h2 hmd1 hs1 hmd2 hs2
    rw [show lookupType [(.ps1, sprintf1 "%s-script-ps1" c), (.cmd, sprintf1 "%s-script-cmd" c),
        (.bat, sprintf1 "%s-script-bat" c), (.url, sprintf1 "%s-script-url" c)] .ps1 =
      some (sprintf1 "%s-script-ps1" c) from rfl] at h1
    rw [show lookupType [(.ps1, sprintf1 "%s-script-ps1" c), (.cmd, sprintf1 "%s-script-cmd" c),
        (.bat, sprintf1 "%s-script-bat" c), (.url, sprintf1 "%s-script-url" c)] .cmd =
      some (sprintf1 "%s-script-cmd" c) from rfl] at h2
    injection h1 with h1
    injection h2 with h2
    subst h1; subst h2
    refine ⟨parseMetadata [(.bat, sprintf1 "%s-script-bat" c),
      (.url, sprintf1 "%s-script-url" c)] md, ?_, fun r hr => mem_parseMetadata_batUrl hr⟩
    rw [parseMetadata_four, parseMetadata_two]
    simp only [List.filterMap_cons, List.filterMap_nil,
      show lookupType [(.ps1, sprintf1 "%s-script-ps1" c), (.cmd, sprintf1 "%s-script-cmd" c),
        (.bat, sprintf1 "%s-script-bat" c), (.url, sprintf1 "%s-script-url" c)] .ps1 =
        some (sprintf1 "%s-script-ps1" c) from rfl,
      show lookupType [(.ps1, sprintf1 "%s-script-ps1" c), (.cmd, sprintf1 "%s-script-cmd" c),
        (.bat, sprintf1 "%s-script-bat" c), (.url, sprintf1 "%s-script-url" c)] .cmd =
        some (sprintf1 "%s-script-cmd" c) from rfl,
      show lookupType [(.ps1, sprintf1 "%s-script-ps1" c), (.cmd, sprintf1 "%s-script-cmd" c),
        (.bat, sprintf1 "%s-script-bat" c), (.url, sprintf1 "%s-script-url" c)] .bat =
        some (sprintf1 "%s-script-bat" c) from rfl,
      show lookupType [(.ps1, sprintf1 "%s-script-ps1" c), (.cmd, sprintf1 "%s-script-cmd" c),
        (.bat, sprintf1 "%s-script-bat" c), (.url, sprintf1 "%s-script-url" c)] .url =
        some (sprintf1 "%s-script-url" c) from rfl,
      show lookupType [(.bat, sprintf1 "%s-script-bat" c),
        (.url, sprintf1 "%s-script-url" c)] .bat = some (sprintf1 "%s-script-bat" c) from rfl,
      show lookupType [(.bat, sprintf1 "%s-script-bat" c),
        (.url, sprintf1 "%s-script-url" c)] .url = some (sprintf1 "%s-script-url" c) from rfl,
      hmd1, hmd2, if_neg hs1, if_neg hs2]

/-- Witness for C1: phase startup with both the ps1 and the cmd startup
attributes populated yields the ps1 record first, then the cmd record, and
any remaining records are of bat or url kind. -/
theorem parseMetadata_order_witness :
    ∃ tail, parseMetadata
        [(.ps1, "windows-startup-script-ps1"), (.cmd, "windows-startup-script-cmd"),
         (.bat, "windows-startup-script-bat"), (.url, "windows-startup-script-url")] mdExample =
      ⟨.ps1, "Write-Output hi", "windows-startup-script-ps1"⟩ ::
      ⟨.cmd, "echo hi", "windows-startup-script-cmd"⟩ :: tail ∧
      ∀ r ∈ tail, r.type = .bat ∨ r.type = .url :=
  (parseMetadata_order ["GCEMetadataScripts.exe", "startup"] _ mdExample rfl).2
    "windows-startup-script-ps1" "windows-startup-script-cmd" "Write-Output hi" "echo hi"
    rfl rfl rfl (by decide) rfl (by decide)

/-- Claim C2: a script whose process exits non-zero is logged as an
informational exit status and is not an orchestrator-level failure - the
remaining queued scripts still run and main's exit code does not depend on
the per-script outcomes at all: it is 0 whenever argument validation and
the metadata fetch succeeded. -/
theorem script_failure_nonfatal
    (outcome : metadataScript → scriptOutcome) (s : metadataScript)
    (rest : List metadataScript) (n : Nat) (h : outcome s = .exitError n) :
    runScripts outcome (s :: rest) =
      logEntry.infoFound s.metadata :: logEntry.infoExit s.metadata n :: runScripts outcome rest
  ∧ (∀ args mdFetch outcome2, mainExit args mdFetch outcome = mainExit args mdFetch outcome2)
  ∧ (∀ args mdsm md, validateArgs args = .ok mdsm → mainExit args (.ok md) outcome = 0) := by
  refine ⟨?_, ?_, ?_⟩
  · simp [runScripts, h]
  · intro args mdFetch outcome2
    unfold mainExit
    cases validateArgs args with
    | error e => rfl
    | ok mdsm =>
      cases mdFetch with
      | error e => rfl
      | ok md => rfl
  · intro args mdsm md hva
    unfold mainExit
    rw [hva]
    by_cases hemp : (parseMetadata mdsm md).isEmpty
    · simp [hemp]
    · simp [hemp]

/-- Witness for C2: a script exiting with status 3 is logged
informationally and the next queued script is still processed. -/
theorem script_failure_nonfatal_witness :
    runScripts (fun _ => .exitError 3) [⟨.ps1, "a", "m1"⟩, ⟨.bat, "b", "m2"⟩] =
      .infoFound "m1" :: .infoExit "m1" 3 ::
        runScripts (fun _ => .exitError 3) [⟨.bat, "b", "m2"⟩] :=
  (script_failure_nonfatal (fun _ => .exitError 3) ⟨.ps1, "a", "m1"⟩
    [⟨.bat, "b", "m2"⟩] 3 rfl).1

end GCEMS
